import Mathlib

/-!
Shallow embedding of `src/transform/downscale_local_mean/downscale_local_mean.py`
(functions `block_reduce` and `downscale_local_mean`) and verification of the
specification's claims about them.

Arrays ("tensors") are modelled as a shape (list of extents), an element type
tag, and a total valuation from multi-indices to rationals; only the values at
in-bounds multi-indices are meaningful.  Machine floating point is modelled by
exact rationals, which matches the spec's own exact statements (e.g. `7/3`).
Python `ValueError`s are modelled by an explicit error type.
-/

set_option linter.unusedVariables false

/-- Element-type tag of an array, as far as the claims need it
(`tf.float64` versus anything narrower, e.g. an integer dtype). -/
inductive DType where
  | int64 : DType
  | float64 : DType
deriving DecidableEq, Repr

/-- An N-dimensional array: a shape, a dtype tag and a valuation on
multi-indices (row-major buffer abstracted as a function; only indices
in bounds of `shape` are meaningful). -/
structure Tensor where
  shape : List Nat
  dtype : DType
  val : List Nat → ℚ

/-- The two `ValueError`s `block_reduce` can raise:
`rankMismatch` for "`block_size` must have the same length as `image.shape`."
and `invalidBlockSize` for "Down-sampling factors must be >= 1.". -/
inductive BRError where
  | rankMismatch : BRError
  | invalidBlockSize : BRError
deriving DecidableEq, Repr

/-- A multi-index `idx` is in bounds of `shape`. -/
def inBounds (shape idx : List Nat) : Bool :=
  idx.length == shape.length && (List.zip idx shape).all (fun p => p.1 < p.2)

/-- The `for i in range(len(block_size))` loop of `block_reduce`: for each
axis, raise `ValueError` if `block_size[i] < 1`, otherwise append the pad
pair `(0, after_width)` where `after_width = block_size[i] - (shape[i] %
block_size[i])` when the remainder is nonzero and `0` otherwise. -/
def padLoop : List Nat → List Int → Except BRError (List (Nat × Nat))
  | s :: ss, b :: bs =>
      if b < 1 then Except.error BRError.invalidBlockSize
      else
        let bn := b.toNat
        let after := if s % bn ≠ 0 then bn - s % bn else 0
        (padLoop ss bs).map (fun rest => (0, after) :: rest)
  | _, _ => Except.ok []

/-- `tf.pad(t, padWidth, "CONSTANT")`: each axis grows from `s` to
`before + s + after`; positions outside the shifted original region hold the
constant `0` (TensorFlow's default `constant_values`; NOTE the source never
passes `cval` here). -/
def tfPad (t : Tensor) (padWidth : List (Nat × Nat)) : Tensor :=
  { shape := (List.zip t.shape padWidth).map (fun p => p.2.1 + p.1 + p.2.2),
    dtype := t.dtype,
    val := fun idx =>
      if inBounds ((List.zip t.shape padWidth).map (fun p => p.2.1 + p.1 + p.2.2)) idx
          && (List.zip idx (List.zip t.shape padWidth)).all
               (fun p => p.2.2.1 ≤ p.1 && p.1 < p.2.2.1 + p.2.1)
      then t.val ((List.zip idx padWidth).map (fun p => p.1 - p.2.1))
      else 0 }

/-- All multi-indices of a given shape, in row-major order. -/
def allIndices : List Nat → List (List Nat)
  | [] => [[]]
  | n :: ns => (List.range n).flatMap (fun i => (allIndices ns).map (fun rest => i :: rest))

/-- Modelled from the spec: `view_as_blocks` is called by `block_reduce` but
its definition is not among the repository sources.  Per the spec (§3, §4.1,
§4.2 Step 4) it reinterprets an exactly-divisible padded array of rank `D` as
a rank-`2*D` array with the `D` block-index axes first and the `D`
within-block axes last (the grouped convention, the one consistent with the
source reducing axes `D..2*D-1`), where the element at `(b_0..b_{D-1},
s_0..s_{D-1})` is the element of the input at `(b_0*blockSize_0 + s_0, ...)`. -/
def view_as_blocks (t : Tensor) (block_size : List Nat) : Tensor :=
  let D := t.shape.length
  { shape := (List.zip t.shape block_size).map (fun p => p.1 / p.2) ++ block_size,
    dtype := t.dtype,
    val := fun idx =>
      t.val ((List.zip (List.zip (idx.take D) block_size) (idx.drop D)).map
        (fun p => p.1.1 * p.1.2 + p.2)) }

/-- `tf.cast(t, dtype)`: retags the element type.  Values are modelled
exactly (the source only casts to the wider `tf.float64`). -/
def tfCast (t : Tensor) (d : DType) : Tensor :=
  { t with dtype := d }

/-- The reduction functions passed as `func` (`tf.reduce_sum`,
`tf.reduce_mean`, `tf.reduce_min`). -/
inductive ReduceOp where
  | sum : ReduceOp
  | mean : ReduceOp
  | min : ReduceOp
deriving DecidableEq, Repr

/-- How a reduction op collapses the list of elements of one block. -/
def opApply : ReduceOp → List ℚ → ℚ
  | ReduceOp.sum, xs => xs.sum
  | ReduceOp.mean, xs => xs.sum / xs.length
  | ReduceOp.min, [] => 0
  | ReduceOp.min, x :: xs => xs.foldl Min.min x

/-- `func(blocked, axis=tuple(range(keep, blocked.ndim)))`: reduce over all
axes from `keep` on, keeping the leading `keep` axes. -/
def reduceApply (op : ReduceOp) (t : Tensor) (keep : Nat) : Tensor :=
  { shape := t.shape.take keep,
    dtype := t.dtype,
    val := fun idx =>
      opApply op ((allIndices (t.shape.drop keep)).map (fun j => t.val (idx ++ j))) }

/-- `block_reduce(image, block_size, func, cval)` from the source: rank
check, per-axis block-size check and pad-width computation, `tf.pad` with
mode `"CONSTANT"`, `view_as_blocks`, cast to `tf.float64`, and reduction of
the within-block axes `image.ndim .. blocked.ndim - 1`.  The `cval`
parameter is accepted but — exactly as in the source — never used. -/
def block_reduce (image : Tensor) (block_size : List Int) (func : ReduceOp)
    (cval : ℚ) : Except BRError Tensor :=
  if block_size.length ≠ image.shape.length then Except.error BRError.rankMismatch
  else
    (padLoop image.shape block_size).map (fun pw =>
      let padded := tfPad image pw
      let blocked := tfCast (view_as_blocks padded (block_size.map Int.toNat)) DType.float64
      reduceApply func blocked image.shape.length)

/-- `downscale_local_mean(image, factors, cval)` from the source:
`block_reduce(image, factors, tf.reduce_mean, cval)` (the session /
`convert_to_tensor` plumbing is the identity on the mathematical array). -/
def downscale_local_mean (image : Tensor) (factors : List Int) (cval : ℚ) :
    Except BRError Tensor :=
  block_reduce image factors ReduceOp.mean cval

/-- The spec's description (§4.3) of the `mean` reduction fed to BlockReduce:
the value of output block `bidx` is the arithmetic average of all elements of
that block of the padded array — every within-block position participates,
padding positions included. -/
def blockMean_spec (padded : Tensor) (block_size : List Nat) (bidx : List Nat) : ℚ :=
  ((allIndices block_size).map (fun s =>
      padded.val ((List.zip (List.zip bidx block_size) s).map
        (fun p => p.1.1 * p.1.2 + p.2)))).sum / (block_size.prod : ℚ)

/-- A concrete 1-D test image `[1, 2, 3, 4, 5, 6, 7]`. -/
def img7 : Tensor :=
  { shape := [7],
    dtype := DType.float64,
    val := fun idx => (([1, 2, 3, 4, 5, 6, 7] : List ℚ)).getD (idx.getD 0 0) 0 }

/-- A concrete 1-D one-element image `[1]`. -/
def img1 : Tensor :=
  { shape := [1],
    dtype := DType.float64,
    val := fun idx => if idx.getD 0 0 = 0 then 1 else 0 }

/-- A concrete integer-typed 1-D image `[1, 2, 3, 4]`. -/
def img4i : Tensor :=
  { shape := [4],
    dtype := DType.int64,
    val := fun idx => (([1, 2, 3, 4] : List ℚ)).getD (idx.getD 0 0) 0 }

/-! ### Helper lemmas -/

lemma after_eq_mod (s b : Nat) (hb : 1 ≤ b) :
    (if s % b ≠ 0 then b - s % b else 0) = (b - s % b) % b := by
  rcases Nat.eq_zero_or_pos (s % b) with h | h
  · simp [h, Nat.mod_self]
  · have hlt : s % b < b := Nat.mod_lt _ hb
    rw [if_pos (by omega : s % b ≠ 0), Nat.mod_eq_of_lt (by omega : b - s % b < b)]

lemma padded_mod (s b : Nat) (hb : 1 ≤ b) : (s + (b - s % b) % b) % b = 0 := by
  have hd := Nat.div_add_mod s b
  have hlt : s % b < b := Nat.mod_lt _ hb
  set r := s % b with hr
  set q := s / b with hq
  rw [← hd]
  rcases Nat.eq_zero_or_pos r with h | h
  · rw [h]
    simp [Nat.mod_self, Nat.mul_mod_right]
  · rw [Nat.mod_eq_of_lt (by omega : b - r < b)]
    have he : b * q + r + (b - r) = b * (q + 1) := by rw [Nat.mul_succ]; omega
    rw [he, Nat.mul_mod_right]

lemma padded_div (s b : Nat) (hb : 1 ≤ b) :
    (s + (b - s % b) % b) / b = (s + b - 1) / b := by
  have hd := Nat.div_add_mod s b
  have hlt : s % b < b := Nat.mod_lt _ hb
  have hb0 : 0 < b := hb
  set r := s % b with hr
  set q := s / b with hq
  rw [← hd]
  rcases Nat.eq_zero_or_pos r with h | h
  · rw [h]
    have h2 : b * q + 0 + (b - 0) % b = b * q := by simp [Nat.mod_self]
    have h3 : b * q + 0 + b - 1 = b - 1 + b * q := by omega
    rw [h2, h3, Nat.add_mul_div_left _ _ hb0, Nat.div_eq_of_lt (by omega : b - 1 < b),
      Nat.mul_div_cancel_left _ hb0]
    omega
  · rw [Nat.mod_eq_of_lt (by omega : b - r < b)]
    have h2 : b * q + r + (b - r) = b + b * q := by omega
    have h3 : b * q + r + b - 1 = r - 1 + b + b * q := by omega
    rw [h2, h3, Nat.add_mul_div_left _ _ hb0, Nat.add_mul_div_left _ _ hb0,
      Nat.add_div_right _ hb0, Nat.div_eq_of_lt (by omega : r - 1 < b),
      Nat.div_self hb0]

/-- The pad widths the source loop computes, in closed form. -/
def pwFormula (ss : List Nat) (bs : List Int) : List (Nat × Nat) :=
  List.zipWith (fun s b => ((0 : Nat), (b.toNat - s % b.toNat) % b.toNat)) ss bs

lemma padLoop_ok (ss : List Nat) (bs : List Int) (hbs : ∀ b ∈ bs, 1 ≤ b) :
    padLoop ss bs = Except.ok (pwFormula ss bs) := by
  induction ss generalizing bs with
  | nil => cases bs <;> rfl
  | cons s ss ih =>
    cases bs with
    | nil => rfl
    | cons b bs2 =>
      have hb : 1 ≤ b := hbs b (List.mem_cons_self _ _)
      have hbn : 1 ≤ b.toNat := by omega
      simp only [padLoop, if_neg (by omega : ¬b < 1)]
      rw [ih bs2 (fun x hx => hbs x (List.mem_cons_of_mem _ hx))]
      simp [Except.map, pwFormula, after_eq_mod _ _ hbn]

lemma padLoop_err (ss : List Nat) (bs : List Int) (hlen : ss.length = bs.length)
    (hbad : ∃ b ∈ bs, b < 1) :
    padLoop ss bs = Except.error BRError.invalidBlockSize := by
  induction ss generalizing bs with
  | nil =>
    cases bs with
    | nil => simp at hbad
    | cons b bs2 => simp at hlen
  | cons s ss ih =>
    cases bs with
    | nil => simp at hlen
    | cons b bs2 =>
      by_cases hb : b < 1
      · simp [padLoop, hb]
      · obtain ⟨x, hx, hx1⟩ := hbad
        rcases List.mem_cons.mp hx with h | h
        · omega
        · simp only [padLoop, if_neg hb]
          rw [ih bs2 (by simpa using hlen) ⟨x, h, hx1⟩]
          rfl

lemma allIndices_length (ns : List Nat) : (allIndices ns).length = ns.prod := by
  induction ns with
  | nil => rfl
  | cons n ns ih =>
    simp only [allIndices, List.length_flatMap, List.map_map]
    have h2 : (List.length ∘ fun i : Nat => List.map (fun rest => i :: rest) (allIndices ns))
        = fun i : Nat => ns.prod := by
      funext i
      simp [ih]
    rw [h2]
    simp [List.map_const', List.sum_replicate, smul_eq_mul, Nat.mul_comm]

lemma paddedShape_eq (ss : List Nat) (bs : List Int) :
    (List.zip ss (pwFormula ss bs)).map (fun p => p.2.1 + p.1 + p.2.2)
      = List.zipWith (fun s b => s + (Int.toNat b - s % Int.toNat b) % Int.toNat b) ss bs := by
  induction ss generalizing bs with
  | nil => cases bs <;> rfl
  | cons s ss ih =>
    cases bs with
    | nil => rfl
    | cons b bs2 =>
      have h := ih bs2
      simp only [pwFormula] at h ⊢
      simp [List.zip_cons_cons, h]

lemma nbs_eq (ss : List Nat) (bs : List Int) (hbs : ∀ b ∈ bs, 1 ≤ b) :
    (List.zip (List.zipWith (fun s b => s + (Int.toNat b - s % Int.toNat b) % Int.toNat b) ss bs)
        (bs.map Int.toNat)).map (fun p => p.1 / p.2)
      = List.zipWith (fun s (b : Int) => s ⌈/⌉ b.toNat) ss bs := by
  induction ss generalizing bs with
  | nil => cases bs <;> rfl
  | cons s ss ih =>
    cases bs with
    | nil => rfl
    | cons b bs2 =>
      have hb : 1 ≤ b := hbs b (List.mem_cons_self _ _)
      have hbn : 1 ≤ b.toNat := by omega
      simp only [List.zipWith_cons_cons, List.map_cons, List.zip_cons_cons]
      rw [ih bs2 (fun x hx => hbs x (List.mem_cons_of_mem _ hx))]
      rw [padded_div _ _ hbn, Nat.ceilDiv_eq_add_pred_div]

lemma block_reduce_ok (image : Tensor) (block_size : List Int) (func : ReduceOp) (cval : ℚ)
    (hlen : block_size.length = image.shape.length) (hbs : ∀ b ∈ block_size, 1 ≤ b) :
    block_reduce image block_size func cval = Except.ok
      (reduceApply func
        (tfCast (view_as_blocks (tfPad image (pwFormula image.shape block_size))
          (block_size.map Int.toNat)) DType.float64)
        image.shape.length) := by
  unfold block_reduce
  rw [if_neg (by omega : ¬block_size.length ≠ image.shape.length), padLoop_ok _ _ hbs]
  rfl

lemma blocked_shape_eq (image : Tensor) (block_size : List Int)
    (hbs : ∀ b ∈ block_size, 1 ≤ b) :
    (view_as_blocks (tfPad image (pwFormula image.shape block_size))
        (block_size.map Int.toNat)).shape
      = List.zipWith (fun s (b : Int) => s ⌈/⌉ b.toNat) image.shape block_size
          ++ block_size.map Int.toNat := by
  show ((List.zip (tfPad image (pwFormula image.shape block_size)).shape
      (block_size.map Int.toNat)).map (fun p => p.1 / p.2)) ++ block_size.map Int.toNat = _
  rw [show (tfPad image (pwFormula image.shape block_size)).shape
      = (List.zip image.shape (pwFormula image.shape block_size)).map
          (fun p => p.2.1 + p.1 + p.2.2) from rfl]
  rw [paddedShape_eq, nbs_eq _ _ hbs]

/-! ### Claims -/

set_option maxHeartbeats 1600000 in
/-- **C1 (code bug)**: the spec says Step 2 fills every newly introduced
position with `cval`, and the source's own docstring documents `cval` as the
constant padding value — but the source calls `tf.pad(image, pad_width,
"CONSTANT")` without passing `cval`, so the new positions hold `0`.  At
`image = [1]`, `block_size = [2]`, `cval = 5`: the padded array is `[1, 0]`
(shape and the original leading region are as claimed), the new position
holds `0 ≠ 5`, and the downscaled mean is `(1 + 0)/2 = 1/2` instead of the
`(1 + 5)/2 = 3` the claim implies. -/
theorem C1_padding_ignores_cval :
    padLoop img1.shape [2] = Except.ok [(0, 1)] ∧
    (tfPad img1 [(0, 1)]).shape = [2] ∧
    (tfPad img1 [(0, 1)]).val [0] = 1 ∧
    (tfPad img1 [(0, 1)]).val [1] = 0 ∧
    (0 : ℚ) ≠ 5 ∧
    ((downscale_local_mean img1 [2] 5).map (fun t => t.val [0])).toOption = some (1 / 2) ∧
    ((1 : ℚ) + 5) / 2 = 3 ∧ (1 : ℚ) / 2 ≠ 3 := by
  refine ⟨rfl, rfl, rfl, rfl, by norm_num, ?_, by norm_num, by norm_num⟩
  have hall : allIndices [2] = [[0], [1]] := rfl
  simp only [downscale_local_mean, block_reduce, padLoop, tfPad, view_as_blocks,
    tfCast, reduceApply, opApply, img1, inBounds]
  norm_num [Except.map, Except.toOption, Int.toNat, hall, List.zip]

/-- **C2**: whenever both preconditions hold (`length(blockSize) == rank(image)`
and every block-size component `≥ 1`), `block_reduce` raises no error and
returns a result array. -/
theorem C2_valid_input_returns_ok (image : Tensor) (block_size : List Int)
    (func : ReduceOp) (cval : ℚ)
    (hlen : block_size.length = image.shape.length)
    (hbs : ∀ b ∈ block_size, 1 ≤ b) :
    ∃ t, block_reduce image block_size func cval = Except.ok t :=
  ⟨_, block_reduce_ok image block_size func cval hlen hbs⟩

/-- Witness for C2 at `image = [1,2,3,4,5,6,7]`, `block_size = [3]`. -/
theorem C2_valid_input_returns_ok_witness :
    (([3] : List Int).length = img7.shape.length ∧ ∀ b ∈ ([3] : List Int), 1 ≤ b) ∧
    ∃ t, block_reduce img7 [3] ReduceOp.sum 0 = Except.ok t :=
  ⟨⟨by decide, by decide⟩,
    C2_valid_input_returns_ok img7 [3] ReduceOp.sum 0 (by decide) (by decide)⟩

/-- **C3**: for every rank-`D` array and length-`D` block-size vector with all
components `≥ 1`, the result of `block_reduce` has rank `D` and
`shape[axis] = ⌈image.shape[axis] / blockSize[axis]⌉` on every axis. -/
theorem C3_shape_law (image : Tensor) (block_size : List Int) (func : ReduceOp)
    (cval : ℚ) (hlen : block_size.length = image.shape.length)
    (hbs : ∀ b ∈ block_size, 1 ≤ b) :
    ∃ t, block_reduce image block_size func cval = Except.ok t ∧
      t.shape.length = image.shape.length ∧
      ∀ i, i < image.shape.length →
        t.shape.getD i 0 = (image.shape.getD i 0) ⌈/⌉ (block_size.getD i 1).toNat := by
  refine ⟨_, block_reduce_ok image block_size func cval hlen hbs, ?_⟩
  have hzlen : (List.zipWith (fun s (b : Int) => s ⌈/⌉ b.toNat)
      image.shape block_size).length = image.shape.length := by
    rw [List.length_zipWith, hlen, min_self]
  have hsh : (reduceApply func
      (tfCast (view_as_blocks (tfPad image (pwFormula image.shape block_size))
        (block_size.map Int.toNat)) DType.float64) image.shape.length).shape
      = List.zipWith (fun s (b : Int) => s ⌈/⌉ b.toNat) image.shape block_size := by
    show (view_as_blocks (tfPad image (pwFormula image.shape block_size))
        (block_size.map Int.toNat)).shape.take image.shape.length = _
    rw [blocked_shape_eq _ _ hbs]
    exact List.take_left' hzlen
  refine ⟨by rw [hsh, hzlen], ?_⟩
  intro i hi
  have hilen : i < (List.zipWith (fun s (b : Int) => s ⌈/⌉ b.toNat)
      image.shape block_size).length := by rw [hzlen]; exact hi
  rw [hsh, List.getD_eq_getElem _ _ hilen, List.getElem_zipWith,
    List.getD_eq_getElem _ _ hi, List.getD_eq_getElem _ _ (by omega : i < block_size.length)]

/-- Witness for C3 at `image = [1,2,3,4,5,6,7]`, `block_size = [3]`. -/
theorem C3_shape_law_witness :
    (([3] : List Int).length = img7.shape.length ∧ ∀ b ∈ ([3] : List Int), 1 ≤ b) ∧
    ∃ t, block_reduce img7 [3] ReduceOp.sum 0 = Except.ok t ∧
      t.shape.length = img7.shape.length ∧
      ∀ i, i < img7.shape.length →
        t.shape.getD i 0 = (img7.shape.getD i 0) ⌈/⌉ ((([3] : List Int).getD i 1).toNat) :=
  ⟨⟨by decide, by decide⟩, C3_shape_law img7 [3] ReduceOp.sum 0 (by decide) (by decide)⟩

/-- **C6**: whenever the block-size vector's length differs from the image's
rank, `block_reduce` fails with the rank-mismatch error and produces no
output. -/
theorem C6_rank_mismatch (image : Tensor) (block_size : List Int) (func : ReduceOp)
    (cval : ℚ) (h : block_size.length ≠ image.shape.length) :
    block_reduce image block_size func cval = Except.error BRError.rankMismatch := by
  unfold block_reduce
  rw [if_pos h]

/-- Witness for C6 at `image = [1,2,3,4,5,6,7]`, `block_size = [1, 1]`. -/
theorem C6_rank_mismatch_witness :
    (([1, 1] : List Int).length ≠ img7.shape.length) ∧
    block_reduce img7 [1, 1] ReduceOp.sum 0 = Except.error BRError.rankMismatch :=
  ⟨by decide, C6_rank_mismatch img7 [1, 1] ReduceOp.sum 0 (by decide)⟩

/-- **C7 (counterexample)**: the claim as stated is false: a call whose
block-size vector contains the component `0 < 1` but whose length differs
from the image's rank fails with `RankMismatch`, not `InvalidBlockSize`. -/
theorem C7_counterexample :
    ((0 : Int) < 1 ∧ (0 : Int) ∈ ([0, 1] : List Int)) ∧
    block_reduce img7 [0, 1] ReduceOp.sum 0 = Except.error BRError.rankMismatch ∧
    block_reduce img7 [0, 1] ReduceOp.sum 0 ≠ Except.error BRError.invalidBlockSize := by
  have h1 : block_reduce img7 [0, 1] ReduceOp.sum 0 = Except.error BRError.rankMismatch := rfl
  exact ⟨⟨by decide, by decide⟩, h1, by rw [h1]; simp⟩

/-- **C7 (amended)**: whenever the block-size vector has the same length as
the image's rank and contains a component `< 1`, `block_reduce` fails with
`InvalidBlockSize`, producing no output and no padded array. -/
theorem C7_invalid_block_size (image : Tensor) (block_size : List Int)
    (func : ReduceOp) (cval : ℚ)
    (hlen : block_size.length = image.shape.length)
    (hbad : ∃ b ∈ block_size, b < 1) :
    block_reduce image block_size func cval = Except.error BRError.invalidBlockSize := by
  unfold block_reduce
  rw [if_neg (by omega : ¬block_size.length ≠ image.shape.length),
    padLoop_err image.shape block_size hlen.symm hbad]
  rfl

/-- Witness for the amended C7 at `image = [1,2,3,4,5,6,7]`, `block_size = [0]`. -/
theorem C7_invalid_block_size_witness :
    ((([0] : List Int).length = img7.shape.length) ∧ ∃ b ∈ ([0] : List Int), b < 1) ∧
    block_reduce img7 [0] ReduceOp.sum 0 = Except.error BRError.invalidBlockSize :=
  ⟨⟨by decide, by decide⟩,
    C7_invalid_block_size img7 [0] ReduceOp.sum 0 (by decide) ⟨0, by decide, by decide⟩⟩

/-- **C8**: the pad width `block_reduce` computes for every axis is
`(0, extra)` with `extra = (blockSize[axis] - shape[axis] mod blockSize[axis])
mod blockSize[axis]`, and consequently `(shape[axis] + extra) mod
blockSize[axis] = 0` on every axis. -/
theorem C8_pad_width_law (image : Tensor) (block_size : List Int)
    (hlen : block_size.length = image.shape.length)
    (hbs : ∀ b ∈ block_size, 1 ≤ b) :
    ∃ pw, padLoop image.shape block_size = Except.ok pw ∧
      pw.length = image.shape.length ∧
      (∀ i, i < image.shape.length →
        pw.getD i (0, 0) = (0,
          ((block_size.getD i 1).toNat
              - image.shape.getD i 0 % (block_size.getD i 1).toNat)
            % (block_size.getD i 1).toNat)) ∧
      (∀ i, i < image.shape.length →
        (image.shape.getD i 0 + (pw.getD i (0, 0)).2)
          % (block_size.getD i 1).toNat = 0) := by
  have hpwlen : (pwFormula image.shape block_size).length = image.shape.length := by
    simp only [pwFormula, List.length_zipWith, hlen]
    exact min_self _
  refine ⟨pwFormula image.shape block_size, padLoop_ok _ _ hbs, hpwlen, ?_, ?_⟩
  · intro i hi
    have hip : i < (pwFormula image.shape block_size).length := by rw [hpwlen]; exact hi
    have hib : i < block_size.length := by omega
    rw [List.getD_eq_getElem _ _ hip]
    simp only [pwFormula] at hip ⊢
    rw [List.getElem_zipWith, List.getD_eq_getElem _ _ hi, List.getD_eq_getElem _ _ hib]
  · intro i hi
    have hip : i < (pwFormula image.shape block_size).length := by rw [hpwlen]; exact hi
    have hib : i < block_size.length := by omega
    have hb1 : 1 ≤ block_size[i] := hbs _ (List.getElem_mem hib)
    rw [List.getD_eq_getElem _ _ hip]
    simp only [pwFormula] at hip ⊢
    rw [List.getElem_zipWith, List.getD_eq_getElem _ _ hi, List.getD_eq_getElem _ _ hib]
    exact padded_mod _ _ (by omega)

/-- Witness for C8 at `image = [1,2,3,4,5,6,7]`, `block_size = [3]`. -/
theorem C8_pad_width_law_witness :
    (([3] : List Int).length = img7.shape.length ∧ ∀ b ∈ ([3] : List Int), 1 ≤ b) ∧
    ∃ pw, padLoop img7.shape [3] = Except.ok pw ∧
      pw.length = img7.shape.length ∧
      (∀ i, i < img7.shape.length →
        pw.getD i (0, 0) = (0,
          ((([3] : List Int).getD i 1).toNat
              - img7.shape.getD i 0 % (([3] : List Int).getD i 1).toNat)
            % (([3] : List Int).getD i 1).toNat)) ∧
      (∀ i, i < img7.shape.length →
        (img7.shape.getD i 0 + (pw.getD i (0, 0)).2)
          % (([3] : List Int).getD i 1).toNat = 0) :=
  ⟨⟨by decide, by decide⟩, C8_pad_width_law img7 [3] (by decide) (by decide)⟩

set_option maxHeartbeats 1600000 in
/-- **C4**: on the 1-D input `[1,2,3,4,5,6,7]` with block size `[3]` and
`cval = 0`, the input is padded to `[1,2,3,4,5,6,7,0,0]` (length 9), the
blocked view holds the blocks `[1,2,3]`, `[4,5,6]`, `[7,0,0]`, and
`downscale_local_mean` returns `[2, 5, 7/3]`. -/
theorem C4_concrete_mean_case :
    padLoop img7.shape [3] = Except.ok [(0, 2)] ∧
    (tfPad img7 [(0, 2)]).shape = [9] ∧
    ((tfPad img7 [(0, 2)]).val [0] = 1 ∧ (tfPad img7 [(0, 2)]).val [1] = 2 ∧
      (tfPad img7 [(0, 2)]).val [2] = 3 ∧ (tfPad img7 [(0, 2)]).val [3] = 4 ∧
      (tfPad img7 [(0, 2)]).val [4] = 5 ∧ (tfPad img7 [(0, 2)]).val [5] = 6 ∧
      (tfPad img7 [(0, 2)]).val [6] = 7 ∧ (tfPad img7 [(0, 2)]).val [7] = 0 ∧
      (tfPad img7 [(0, 2)]).val [8] = 0) ∧
    ((view_as_blocks (tfPad img7 [(0, 2)]) [3]).val [0, 0] = 1 ∧
      (view_as_blocks (tfPad img7 [(0, 2)]) [3]).val [0, 1] = 2 ∧
      (view_as_blocks (tfPad img7 [(0, 2)]) [3]).val [0, 2] = 3 ∧
      (view_as_blocks (tfPad img7 [(0, 2)]) [3]).val [1, 0] = 4 ∧
      (view_as_blocks (tfPad img7 [(0, 2)]) [3]).val [1, 1] = 5 ∧
      (view_as_blocks (tfPad img7 [(0, 2)]) [3]).val [1, 2] = 6 ∧
      (view_as_blocks (tfPad img7 [(0, 2)]) [3]).val [2, 0] = 7 ∧
      (view_as_blocks (tfPad img7 [(0, 2)]) [3]).val [2, 1] = 0 ∧
      (view_as_blocks (tfPad img7 [(0, 2)]) [3]).val [2, 2] = 0) ∧
    (downscale_local_mean img7 [3] 0).map (fun t => t.shape) = Except.ok [3] ∧
    ((downscale_local_mean img7 [3] 0).map
        (fun t => (t.val [0], t.val [1], t.val [2]))).toOption = some (2, 5, 7 / 3) := by
  refine ⟨rfl, rfl, ⟨rfl, rfl, rfl, rfl, rfl, rfl, rfl, rfl, rfl⟩,
    ⟨rfl, rfl, rfl, rfl, rfl, rfl, rfl, rfl, rfl⟩, rfl, ?_⟩
  have hall : allIndices [3] = [[0], [1], [2]] := rfl
  simp only [downscale_local_mean, block_reduce, padLoop, tfPad, view_as_blocks,
    tfCast, reduceApply, opApply, img7, inBounds]
  norm_num [Except.map, Except.toOption, Int.toNat, hall, List.zip]

/-- **C5**: `downscale_local_mean image factors cval` is exactly
`block_reduce image factors mean cval`, and on valid input the value of each
output cell is the arithmetic average of all elements of its block of the
padded array (padding positions participate like real data). -/
theorem C5_downscale_is_mean_block_reduce (image : Tensor) (factors : List Int)
    (cval : ℚ) (pw : List (Nat × Nat)) (t : Tensor) (bidx : List Nat)
    (hlen : factors.length = image.shape.length)
    (hbs : ∀ b ∈ factors, 1 ≤ b)
    (hpw : padLoop image.shape factors = Except.ok pw)
    (ht : block_reduce image factors ReduceOp.mean cval = Except.ok t)
    (hb : bidx.length = image.shape.length) :
    downscale_local_mean image factors cval = block_reduce image factors ReduceOp.mean cval ∧
    t.val bidx = blockMean_spec (tfPad image pw) (factors.map Int.toNat) bidx := by
  refine ⟨rfl, ?_⟩
  rw [padLoop_ok _ _ hbs] at hpw
  rw [block_reduce_ok image factors ReduceOp.mean cval hlen hbs] at ht
  obtain rfl : pwFormula image.shape factors = pw := Except.ok.inj hpw
  obtain rfl : reduceApply ReduceOp.mean
      (tfCast (view_as_blocks (tfPad image (pwFormula image.shape factors))
        (factors.map Int.toNat)) DType.float64) image.shape.length = t := Except.ok.inj ht
  have hPlen : (tfPad image (pwFormula image.shape factors)).shape.length
      = image.shape.length := by
    show ((List.zip image.shape (pwFormula image.shape factors)).map
        (fun p => p.2.1 + p.1 + p.2.2)).length = image.shape.length
    simp only [List.length_map, List.length_zip, pwFormula, List.length_zipWith, hlen]
    omega
  have hzlen : (List.zipWith (fun s (b : Int) => s ⌈/⌉ b.toNat)
      image.shape factors).length = image.shape.length := by
    rw [List.length_zipWith, hlen]
    exact min_self _
  have hdrop : (view_as_blocks (tfPad image (pwFormula image.shape factors))
      (factors.map Int.toNat)).shape.drop image.shape.length = factors.map Int.toNat := by
    rw [blocked_shape_eq _ _ hbs]
    exact List.drop_left' hzlen
  have hval : ∀ j : List Nat,
      (view_as_blocks (tfPad image (pwFormula image.shape factors))
        (factors.map Int.toNat)).val (bidx ++ j)
      = (tfPad image (pwFormula image.shape factors)).val
          ((List.zip (List.zip bidx (factors.map Int.toNat)) j).map
            (fun p => p.1.1 * p.1.2 + p.2)) := by
    intro j
    show (tfPad image (pwFormula image.shape factors)).val
        ((List.zip (List.zip ((bidx ++ j).take
            (tfPad image (pwFormula image.shape factors)).shape.length)
          (factors.map Int.toNat))
          ((bidx ++ j).drop (tfPad image (pwFormula image.shape factors)).shape.length)).map
          (fun p => p.1.1 * p.1.2 + p.2)) = _
    rw [hPlen, ← hb, List.take_left, List.drop_left]
  show opApply ReduceOp.mean
      ((allIndices ((view_as_blocks (tfPad image (pwFormula image.shape factors))
          (factors.map Int.toNat)).shape.drop image.shape.length)).map
        (fun j => (view_as_blocks (tfPad image (pwFormula image.shape factors))
          (factors.map Int.toNat)).val (bidx ++ j)))
      = blockMean_spec (tfPad image (pwFormula image.shape factors))
          (factors.map Int.toNat) bidx
  rw [hdrop]
  simp only [hval]
  show ((allIndices (factors.map Int.toNat)).map
      (fun j => (tfPad image (pwFormula image.shape factors)).val
        ((List.zip (List.zip bidx (factors.map Int.toNat)) j).map
          (fun p => p.1.1 * p.1.2 + p.2)))).sum
    / (((allIndices (factors.map Int.toNat)).map
      (fun j => (tfPad image (pwFormula image.shape factors)).val
        ((List.zip (List.zip bidx (factors.map Int.toNat)) j).map
          (fun p => p.1.1 * p.1.2 + p.2)))).length : ℚ)
    = blockMean_spec (tfPad image (pwFormula image.shape factors))
        (factors.map Int.toNat) bidx
  rw [List.length_map, allIndices_length]
  rfl

/-- Witness for C5 at `image = [1,2,3,4,5,6,7]`, `factors = [3]`, `cval = 0`,
output block index `[2]`. -/
theorem C5_downscale_is_mean_block_reduce_witness :
    downscale_local_mean img7 [3] 0 = block_reduce img7 [3] ReduceOp.mean 0 ∧
    (reduceApply ReduceOp.mean
      (tfCast (view_as_blocks (tfPad img7 [(0, 2)]) [3]) DType.float64) 1).val [2]
      = blockMean_spec (tfPad img7 [(0, 2)]) [3] [2] :=
  C5_downscale_is_mean_block_reduce img7 [3] 0 [(0, 2)] _ [2]
    rfl (by decide) rfl rfl rfl

/-- **C9**: the `cval` argument never affects the result of `block_reduce` or
`downscale_local_mean` on an input whose every axis extent is exactly
divisible by the block size (indeed the source never reads `cval` at all, so
the two runs are literally the same computation). -/
theorem C9_cval_noninterference (image : Tensor) (block_size : List Int)
    (func : ReduceOp) (c1 c2 : ℚ)
    (hdiv : ∀ p ∈ List.zip image.shape block_size, p.2.toNat ∣ p.1) :
    block_reduce image block_size func c1 = block_reduce image block_size func c2 ∧
    downscale_local_mean image block_size c1 = downscale_local_mean image block_size c2 :=
  ⟨rfl, rfl⟩

/-- Witness for C9 at `image = [1,2,3,4]`, `block_size = [2]`, `cval ∈ {0, 99}`. -/
theorem C9_cval_noninterference_witness :
    (∀ p ∈ List.zip img4i.shape ([2] : List Int), p.2.toNat ∣ p.1) ∧
    (block_reduce img4i [2] ReduceOp.mean 0 = block_reduce img4i [2] ReduceOp.mean 99 ∧
     downscale_local_mean img4i [2] 0 = downscale_local_mean img4i [2] 99) :=
  ⟨by decide, C9_cval_noninterference img4i [2] ReduceOp.mean 0 99 (by decide)⟩

/-- **C10**: `block_reduce` casts the blocked view to `tf.float64` before
applying `func`, so any returned array is tagged double precision regardless
of the input element type and of the reduction used. -/
theorem C10_result_dtype_float64 (image : Tensor) (block_size : List Int)
    (func : ReduceOp) (cval : ℚ) (t : Tensor)
    (h : block_reduce image block_size func cval = Except.ok t) :
    t.dtype = DType.float64 := by
  unfold block_reduce at h
  by_cases hc : block_size.length ≠ image.shape.length
  · rw [if_pos hc] at h
    exact absurd h (by simp)
  · rw [if_neg hc] at h
    cases hp : padLoop image.shape block_size with
    | error e =>
      rw [hp] at h
      exact absurd h (by simp [Except.map])
    | ok pw =>
      rw [hp] at h
      simp only [Except.map, Except.ok.injEq] at h
      rw [← h]
      rfl

/-- Witness for C10 at the integer-typed image `[1,2,3,4]`, `block_size = [3]`,
`func = sum`. -/
theorem C10_result_dtype_float64_witness :
    (reduceApply ReduceOp.sum
      (tfCast (view_as_blocks (tfPad img4i [(0, 2)]) [3]) DType.float64) 1).dtype
      = DType.float64 :=
  C10_result_dtype_float64 img4i [3] ReduceOp.sum 0 _ rfl
